import Mathlib

/-
  Verification of the oidc-agent request handlers.

  Shallow embedding of src/src/oidc-agent/oidcd/oidcd_handler.c.
  The handlers are translated as pure functions over an explicit account
  registry (a list of account records).  Calls into code that lives outside
  the handler file (HTTP round trips, the prompter pipe, JSON utilities,
  libc) are modelled as oracle fields of an `Env` structure: each oracle is
  an arbitrary function supplied as input, so theorems quantify over every
  possible behaviour of the environment.

  IPC responses (`ipc_writeToPipe` / `ipc_writeOidcErrnoToPipe`) become
  constructors of `AgentResponse`; a handler that writes several times
  yields a list of responses where that matters (register handler).
-/

/-- Result of an operation that sets `oidc_errno`: the token handler only
distinguishes success, the user-cancelled sentinel (OIDC_EUSRPWCNCL) and
everything else. -/
inductive OidcErr where
  | success
  | usrPwCancel
  | other
deriving Repr, DecidableEq

/-- The `min_valid_period` argument of `getAccessTokenUsingRefreshFlow`:
either the FORCE_NEW_TOKEN sentinel or a period in seconds. -/
inductive MinValid where
  | forceNew
  | period (n : Nat)
deriving Repr, DecidableEq

/-- Account record (`struct oidc_account`), restricted to the fields the
handlers in oidcd_handler.c read or write.  `reencrypted` models the
re-encryption of the sensitive buffers performed by `addAccountToList`. -/
structure OidcAccount where
  shortname : String
  issuer_url : String
  tokenEndpoint : Option String
  redirect_uris : List String
  username : Option String
  password : Option String
  refresh_token : Option String
  usedState : Option String
  death : Nat
  confirmationRequired : Bool
  token_expires_at : Nat
  reencrypted : Bool
deriving Repr, DecidableEq

/-- One response object written to the client pipe. -/
inductive AgentResponse where
  | oidcErrno
  | errorResp (msg : String)
  | errorInfo (msg info : String)
  | errorClient (msg body : String)
  | successClient (body : String)
  | successInfo (msg : String)
  | statusSuccess
  | statusConfig (config : OidcAccount)
  | statusAccess (token : String) (issuer_url : String) (expires_at : Nat)
  | statusNotFoundInfo (info : String)
  | acceptedCodeUri (uri state : String)
  | acceptedDevice (deviceJson : String)
deriving Repr, DecidableEq

/-- A request sent to the out-of-process prompter through the pipe. -/
inductive PrompterReq where
  | autoloadReq (short_name hint : String)
  | confirmReq (short_name hint : String)
deriving Repr, DecidableEq

/-- The registry of loaded accounts (`list_t* loaded_accounts`). -/
abbrev Registry := List OidcAccount

/-- `strValid`: a C string is valid when non-NULL and non-empty. -/
def strValid : Option String → Bool
  | none => false
  | some s => !(s == "")

/-- `strcaseequal`: case-insensitive string comparison (character-wise
lower-casing). -/
def strcaseequal (a b : String) : Bool :=
  a.data.map Char.toLower == b.data.map Char.toLower

/-- `hasRedirectUris`: the account has at least one redirect URI. -/
def hasRedirectUris (a : OidcAccount) : Bool :=
  !a.redirect_uris.isEmpty

/-- `account_refreshTokenIsValid`: refresh token present and non-empty. -/
def account_refreshTokenIsValid (a : OidcAccount) : Bool :=
  strValid a.refresh_token

/-- Modelled from the spec: `account_matchByState` (account.c, not under
src/) matches a record whose outstanding used-state equals the key. -/
def account_matchByState (state : String) (r : OidcAccount) : Bool :=
  r.usedState == some state

/-- Modelled from the spec: `getAccountFromList` with the default
shortname match (`account_matchByName`, not under src/); the registry is
a shortname-keyed mapping. -/
def getAccountByName (reg : Registry) (name : String) : Option OidcAccount :=
  reg.find? (fun r => r.shortname == name)

/-- Modelled from the spec: `addAccountToList` (listUtils, not under src/)
re-encrypts the sensitive buffers of the record and stores it under its
shortname, replacing any record with the same shortname. -/
def addAccountToList (reg : Registry) (acc : OidcAccount) : Registry :=
  let acc1 := { acc with reencrypted := true }
  if reg.any (fun r => r.shortname == acc.shortname) then
    reg.map (fun r => if r.shortname == acc.shortname then acc1 else r)
  else
    reg ++ [acc1]

/-- Modelled from the spec: `findInList` with the default shortname match. -/
def findInList (reg : Registry) (acc : OidcAccount) : Option OidcAccount :=
  getAccountByName reg acc.shortname

/-- Modelled from the spec: `list_remove` of the node found by shortname. -/
def list_removeByName (reg : Registry) (name : String) : Registry :=
  reg.eraseP (fun r => r.shortname == name)

/-- Modelled from the spec: the ACCOUNT_NOT_LOADED message of
ipc_values.h (not under src/). -/
def ACCOUNT_NOT_LOADED : String := "account not loaded"

/-- Modelled from the spec: `oidc_serror()` for OIDC_EUNSCOPE, the
unscoped-grant (`invalid_scope`) error. -/
def eunscope_serror : String := "invalid_scope"

/-- Oracles for everything the handlers call outside oidcd_handler.c:
flow engine round trips, the prompter pipe, JSON utilities and libc.
Each field is an arbitrary function, so theorems quantified over `Env`
cover every environment behaviour. -/
structure Env where
  issuerConfig : OidcAccount → Option OidcAccount
  getAccessTokenUsingRefreshFlow :
      OidcAccount → MinValid → Option String → Option String × OidcAccount
  getAccessTokenUsingPasswordFlow : OidcAccount → Bool × OidcAccount
  initDeviceFlow : OidcAccount → Option String
  buildCodeFlowUri : OidcAccount → Option (String × String)
  revokeToken : OidcAccount → Bool
  serror : String
  dynamicRegistration1 : Option String
  dynamicRegistration2 : Option String
  isJSONObject : String → Bool
  jsonHasErrorKey : String → Bool
  jsonErrorDescription : String → Option String
  jsonErrorValue : String → Option String
  jsonScopeValue : String → Option String
  scopeContains : Option String → String → Bool
  escapeQuotes : String → String
  autoloadPipe : Option String
  autoloadPipeErrno : OidcErr
  parseForConfig : String → Option String
  parseForConfigErrno : OidcErr
  getAccountFromJSON : String → Option OidcAccount
  confirmResult : OidcErr
  addAccountErrno : OidcErr
  strToInt : Option String → Nat
  atol : String → Nat
  defaultTimeout : Nat
  now : Nat

/-- Daemon-wide flags of `struct arguments` read by the token handler. -/
structure Arguments where
  confirm : Bool
  no_autoload : Bool
deriving Repr, DecidableEq

/-- `oidcd_handleDelete` (oidcd_handler.c, lines 232-262): parse account,
require it loaded, ensure issuer configured, revoke the refresh token,
and only then remove the record from the registry. -/
def oidcd_handleDelete (env : Env) (reg : Registry)
    (accountOpt : Option OidcAccount) : AgentResponse × Registry :=
  match accountOpt with
  | none => (AgentResponse.oidcErrno, reg)
  | some acc =>
    match findInList reg acc with
    | none => (AgentResponse.errorResp "Could not revoke token: account not loaded", reg)
    | some _found =>
      match env.issuerConfig acc with
      | none => (AgentResponse.oidcErrno, reg)
      | some acc1 =>
        if env.revokeToken acc1 then
          (AgentResponse.statusSuccess, list_removeByName reg acc.shortname)
        else
          (AgentResponse.errorResp ("Could not revoke token: " ++ env.serror), reg)

/-- `oidcd_handleStateLookUp` (oidcd_handler.c, lines 553-574): look up a
loaded record by its outstanding used-state; on a miss reply not-found and
leave the registry alone; on a hit clear the used-state, reply with the
record configuration and re-encrypt the record. -/
def oidcd_handleStateLookUp (reg : Registry) (state : String) :
    AgentResponse × Registry :=
  match reg.find? (account_matchByState state) with
  | none =>
    (AgentResponse.statusNotFoundInfo ("No loaded account info found for state=" ++ state), reg)
  | some acc =>
    let acc1 := { acc with usedState := none }
    (AgentResponse.statusConfig acc1, addAccountToList reg acc1)

/-- Concrete environment used by witnesses: every flow fails, the
prompter pipe is down. -/
def env0 : Env := {
  issuerConfig := fun a => some a
  getAccessTokenUsingRefreshFlow := fun a _ _ => (none, a)
  getAccessTokenUsingPasswordFlow := fun a => (false, a)
  initDeviceFlow := fun _ => none
  buildCodeFlowUri := fun _ => none
  revokeToken := fun _ => false
  serror := "revocation request failed upstream"
  dynamicRegistration1 := none
  dynamicRegistration2 := none
  isJSONObject := fun _ => false
  jsonHasErrorKey := fun _ => false
  jsonErrorDescription := fun _ => none
  jsonErrorValue := fun _ => none
  jsonScopeValue := fun _ => none
  scopeContains := fun s sub =>
    match s with
    | none => false
    | some str => str == sub
  escapeQuotes := fun s => s
  autoloadPipe := none
  autoloadPipeErrno := OidcErr.other
  parseForConfig := fun _ => none
  parseForConfigErrno := OidcErr.other
  getAccountFromJSON := fun _ => none
  confirmResult := OidcErr.success
  addAccountErrno := OidcErr.other
  strToInt := fun _ => 0
  atol := fun s => s.data.foldl (fun n c => n * 10 + (c.toNat - 48)) 0
  defaultTimeout := 0
  now := 1000 }

/-- Concrete account used by witnesses. -/
def acct0 : OidcAccount := {
  shortname := "acme"
  issuer_url := "https://issuer.example"
  tokenEndpoint := some "https://issuer.example/token"
  redirect_uris := []
  username := none
  password := none
  refresh_token := some "rt1"
  usedState := none
  death := 0
  confirmationRequired := false
  token_expires_at := 0
  reencrypted := false }

/-- Account with an outstanding used-state S, for the state-lookup claims. -/
def acctStateA : OidcAccount := { acct0 with shortname := "a", usedState := some "S" }

/-- Second account carrying the same outstanding used-state S. -/
def acctStateB : OidcAccount := { acct0 with shortname := "b", usedState := some "S" }

/-- `addAccount` (oidcd_handler.c, lines 166-184): check issuer config and
token endpoint, force a fresh access token through the refresh flow, then
insert the account into the registry; `none` on any failure. -/
def addAccount (env : Env) (reg : Registry) (account : OidcAccount) : Option Registry :=
  match env.issuerConfig account with
  | none => none
  | some acc1 =>
    if !(strValid acc1.tokenEndpoint) then none
    else
      match env.getAccessTokenUsingRefreshFlow acc1 MinValid.forceNew none with
      | (none, _) => none
      | (some _, acc2) => some (addAccountToList reg acc2)

/-- `oidcd_autoload` (oidcd_handler.c, lines 294-316): ask the prompter for
the account configuration, parse it, stamp the default death and load it
via `addAccount`.  Returns the error class, the updated registry and the
prompter requests issued. -/
def oidcd_autoload (env : Env) (reg : Registry) (short_name : String)
    (hint : Option String) : OidcErr × Registry × List PrompterReq :=
  let req := PrompterReq.autoloadReq short_name (hint.getD "")
  match env.autoloadPipe with
  | none => (env.autoloadPipeErrno, reg, [req])
  | some res =>
    match env.parseForConfig res with
    | none => (env.parseForConfigErrno, reg, [req])
    | some config =>
      match env.getAccountFromJSON config with
      | none => (OidcErr.other, reg, [req])
      | some acct0 =>
        let acct := { acct0 with
          death := if env.defaultTimeout ≠ 0 then env.now + env.defaultTimeout else 0 }
        match addAccount env reg acct with
        | none => (env.addAccountErrno, reg, [req])
        | some reg1 => (OidcErr.success, reg1, [req])

/-- `oidcd_getConfirmation` (oidcd_handler.c, lines 318-328): send a
confirm request to the prompter and parse the error code of the reply. -/
def oidcd_getConfirmation (env : Env) (short_name : String) (hint : Option String) :
    OidcErr × List PrompterReq :=
  (env.confirmResult, [PrompterReq.confirmReq short_name (hint.getD "")])

/-- Outcome of a token request: the response written, the updated
registry, and the prompter requests issued while handling it. -/
structure TokenResult where
  resp : AgentResponse
  reg : Registry
  prompts : List PrompterReq
deriving Repr, DecidableEq

/-- Lines 369-381 of `oidcd_handleToken`: run the refresh flow for the
resolved record, re-encrypt the record into the registry (the
`addAccountToList` call precedes the NULL check in the source), and write
either the errno or the access-token response. -/
def tokenProceed (env : Env) (reg : Registry) (acctOpt : Option OidcAccount)
    (minValid : Nat) (scope : Option String) (prompts : List PrompterReq) : TokenResult :=
  match acctOpt with
  | none => { resp := AgentResponse.oidcErrno, reg := reg, prompts := prompts }
  | some acct =>
    match env.getAccessTokenUsingRefreshFlow acct (MinValid.period minValid) scope with
    | (none, acc1) =>
      { resp := AgentResponse.oidcErrno, reg := addAccountToList reg acc1, prompts := prompts }
    | (some tok, acc1) =>
      { resp := AgentResponse.statusAccess tok acc1.issuer_url acc1.token_expires_at,
        reg := addAccountToList reg acc1, prompts := prompts }

/-- `oidcd_handleToken` (oidcd_handler.c, lines 330-382) after the
shortname presence check and min_valid_period parsing: look the record up
by shortname; on a miss either reject (no_autoload) or autoload through
the prompter; for an already-loaded record that requires confirmation
(daemon-wide flag or per-record flag) ask the prompter first. -/
def oidcd_handleToken_core (env : Env) (args : Arguments) (reg : Registry)
    (short_name : String) (minValid : Nat) (scope : Option String)
    (hint : Option String) : TokenResult :=
  match getAccountByName reg short_name with
  | none =>
    if args.no_autoload then
      { resp := AgentResponse.errorResp ACCOUNT_NOT_LOADED, reg := reg, prompts := [] }
    else
      match oidcd_autoload env reg short_name hint with
      | (OidcErr.success, reg1, prompts) =>
        tokenProceed env reg1 (getAccountByName reg1 short_name) minValid scope prompts
      | (OidcErr.usrPwCancel, reg1, prompts) =>
        { resp := AgentResponse.errorResp ACCOUNT_NOT_LOADED, reg := reg1, prompts := prompts }
      | (OidcErr.other, reg1, prompts) =>
        { resp := AgentResponse.oidcErrno, reg := reg1, prompts := prompts }
  | some acct =>
    if args.confirm || acct.confirmationRequired then
      match oidcd_getConfirmation env short_name hint with
      | (OidcErr.success, prompts) => tokenProceed env reg (some acct) minValid scope prompts
      | (OidcErr.usrPwCancel, prompts) =>
        { resp := AgentResponse.oidcErrno, reg := reg, prompts := prompts }
      | (OidcErr.other, prompts) =>
        { resp := AgentResponse.oidcErrno, reg := reg, prompts := prompts }
    else tokenProceed env reg (some acct) minValid scope []

/-- `oidcd_handleToken` entry: reject a missing shortname as a bad
request; a missing min_valid_period parses to 0 (the C ternary at line
343 only calls strToInt on a non-NULL string). -/
def oidcd_handleToken (env : Env) (args : Arguments) (reg : Registry)
    (short_name : Option String) (min_valid_period_str : Option String)
    (scope : Option String) (hint : Option String) : TokenResult :=
  match short_name with
  | none =>
    { resp := AgentResponse.errorResp "Bad request. Required field account_name not present.",
      reg := reg, prompts := [] }
  | some name =>
    oidcd_handleToken_core env args reg name
      (match min_valid_period_str with
       | some s => env.strToInt (some s)
       | none => 0) scope hint

/-- `initAuthCodeFlow` (oidcd_handler.c, lines 29-53): build the
authorization-code URI (with a fresh state and PKCE verifier, folded into
the oracle) and reply either the errno or the accepted code-uri response
(the gen handler passes info = NULL). -/
def initAuthCodeFlow (env : Env) (account : OidcAccount) : AgentResponse :=
  match env.buildCodeFlowUri account with
  | none => AgentResponse.oidcErrno
  | some (uri, st) => AgentResponse.acceptedCodeUri uri st

/-- The flow-list loop of `oidcd_handleGen` (oidcd_handler.c, lines
74-142).  `len1` is the `flows->len == 1` test of the source (on the
original list length).  `Sum.inl r` means the loop wrote response `r` and
the handler returned inside the loop; `Sum.inr (success, acc)` means the
loop finished and the code after the loop runs with that success flag and
the account as mutated by the attempted flows. -/
def genFlowsLoop (env : Env) (len1 : Bool) :
    OidcAccount → List String → Sum AgentResponse (Bool × OidcAccount)
  | acc, [] => Sum.inr (false, acc)
  | acc, f :: rest =>
    if strcaseequal f "refresh" then
      match env.getAccessTokenUsingRefreshFlow acc MinValid.forceNew none with
      | (some _, acc1) => Sum.inr (true, acc1)
      | (none, acc1) =>
        if len1 then Sum.inl AgentResponse.oidcErrno
        else genFlowsLoop env len1 acc1 rest
    else if strcaseequal f "password" then
      match env.getAccessTokenUsingPasswordFlow acc with
      | (true, acc1) => Sum.inr (true, acc1)
      | (false, acc1) =>
        if len1 then Sum.inl AgentResponse.oidcErrno
        else genFlowsLoop env len1 acc1 rest
    else if strcaseequal f "code" && hasRedirectUris acc then
      Sum.inl (initAuthCodeFlow env acc)
    else if strcaseequal f "device" then
      match env.initDeviceFlow acc with
      | none => Sum.inl AgentResponse.oidcErrno
      | some dj => Sum.inl (AgentResponse.acceptedDevice dj)
    else
      Sum.inl (AgentResponse.errorResp
        (if strcaseequal f "code" && !hasRedirectUris acc then
          "Only code flow specified, but no redirect uris"
        else "Unknown flow " ++ f))

/-- Lines 147-159 of `oidcd_handleGen`, applied to the account with
username and password already cleared: install the account and reply its
configuration when the refresh token is valid and some flow succeeded,
otherwise reply the matching error. -/
def genFinish (reg : Registry) (success : Bool) (acc3 : OidcAccount) :
    AgentResponse × Registry :=
  if account_refreshTokenIsValid acc3 && success then
    (AgentResponse.statusConfig acc3, addAccountToList reg acc3)
  else
    (AgentResponse.errorResp
      (if success then "OIDP response does not contain a refresh token"
       else "No flow was successfull."), reg)

/-- The body of `oidcd_handleGen` after issuer configuration: check the
token endpoint, walk the flow list, then clear username and password and
finish. -/
def oidcd_handleGen_flows (env : Env) (reg : Registry) (acc1 : OidcAccount)
    (flows : List String) : AgentResponse × Registry :=
  if !(strValid acc1.tokenEndpoint) then (AgentResponse.oidcErrno, reg)
  else
    match genFlowsLoop env (flows.length == 1) acc1 flows with
    | Sum.inl r => (r, reg)
    | Sum.inr (success, acc2) =>
      genFinish reg success { acc2 with username := none, password := none }

/-- `oidcd_handleGen` (oidcd_handler.c, lines 55-160): parse account,
ensure issuer configured, then run the flow list. -/
def oidcd_handleGen (env : Env) (reg : Registry) (accountOpt : Option OidcAccount)
    (flows : List String) : AgentResponse × Registry :=
  match accountOpt with
  | none => (AgentResponse.oidcErrno, reg)
  | some acc0 =>
    match env.issuerConfig acc0 with
    | none => (AgentResponse.oidcErrno, reg)
    | some acc1 => oidcd_handleGen_flows env reg acc1 flows

/-- Account that carries the per-record confirmation-required flag. -/
def acctConfirm : OidcAccount := { acct0 with confirmationRequired := true }

/-- Account whose username and password are still set, as parsed from a
gen request before any flow runs. -/
def acctCreds : OidcAccount :=
  { acct0 with username := some "user1", password := some "pw1" }

/-- Environment whose refresh flow succeeds but yields an account with an
empty refresh token. -/
def envNoRefreshToken : Env := { env0 with
  getAccessTokenUsingRefreshFlow := fun a _ _ => (some "AT", { a with refresh_token := none }) }

/-- Environment whose refresh flow succeeds and keeps the refresh token. -/
def envRefreshOk : Env := { env0 with
  getAccessTokenUsingRefreshFlow := fun a _ _ => (some "AT", a) }

/-- Environment in which autoload succeeds (the prompter returns a config
for `acctConfirm`), the refresh flow yields a token, and any confirm
request would be denied. -/
def envAutoload : Env := { env0 with
  autoloadPipe := some "autoload-response"
  parseForConfig := fun _ => some "config-json"
  getAccountFromJSON := fun _ => some acctConfirm
  getAccessTokenUsingRefreshFlow := fun a _ _ => (some "AT", a)
  confirmResult := OidcErr.other }

/-- The timeout of an add request (oidcd_handler.c, lines 195-196): the
parsed timeout string, or the daemon default when the field is absent or
empty. -/
def add_timeout (env : Env) (timeout_str : Option String) : Nat :=
  if strValid timeout_str then env.atol (timeout_str.getD "") else env.defaultTimeout

/-- The death stamp of an add request (oidcd_handler.c, line 197):
now + timeout, with 0 meaning never. -/
def add_death (env : Env) (timeout : Nat) : Nat :=
  if timeout ≠ 0 then env.now + timeout else 0

/-- Lines 201-229 of `oidcd_handleAdd`, applied to the parsed account
with death and confirmation flag already stamped: an already-loaded
shortname gets its death adjusted (when changed) and is re-encrypted with
an idempotent success reply; otherwise the account is validated and
inserted via `addAccount`. -/
def oidcd_handleAdd_core (env : Env) (reg : Registry) (acct2 : OidcAccount)
    (timeout : Nat) : AgentResponse × Registry :=
  match getAccountByName reg acct2.shortname with
  | some found =>
    if found.death ≠ acct2.death then
      (AgentResponse.successInfo
         ("account already loaded. Lifetime set to " ++ toString timeout ++ " seconds."),
       addAccountToList reg { found with death := acct2.death })
    else
      (AgentResponse.successInfo "account already loaded.",
       addAccountToList reg found)
  | none =>
    match addAccount env reg acct2 with
    | none => (AgentResponse.oidcErrno, reg)
    | some reg1 =>
      if timeout > 0 then
        (AgentResponse.successInfo ("Lifetime set to " ++ toString timeout ++ " seconds"), reg1)
      else (AgentResponse.statusSuccess, reg1)

/-- `oidcd_handleAdd` (oidcd_handler.c, lines 186-230): parse the account,
stamp death = now + timeout (0 meaning never) and the per-record
confirmation flag, then load or refresh the registry entry. -/
def oidcd_handleAdd (env : Env) (reg : Registry) (accountOpt : Option OidcAccount)
    (timeout_str confirm_str : Option String) : AgentResponse × Registry :=
  match accountOpt with
  | none => (AgentResponse.oidcErrno, reg)
  | some acct0 =>
    oidcd_handleAdd_core env reg
      (if env.strToInt confirm_str ≠ 0 then
        { acct0 with
          death := add_death env (add_timeout env timeout_str)
          confirmationRequired := true }
      else { acct0 with death := add_death env (add_timeout env timeout_str) })
      (add_timeout env timeout_str)

/-- `oidcd_handleRegister` (oidcd_handler.c, lines 395-478): the list of
response objects written while handling a register request.  The source
writes through `ipc_writeToPipe` at each step; the unscoped-grant branch
(lines 463-468) writes the error-client response and then falls through
to the success-client write at line 470, which is not guarded by an
else. -/
def oidcd_handleRegister (env : Env) (reg : Registry)
    (accountOpt : Option OidcAccount) (flowsOpt : Option (List String)) :
    List AgentResponse :=
  match accountOpt with
  | none => [AgentResponse.oidcErrno]
  | some account =>
    match findInList reg account with
    | some _ =>
      [AgentResponse.errorResp
        "An account with this shortname is already loaded. I will not register a new one."]
    | none =>
      match env.issuerConfig account with
      | none => [AgentResponse.oidcErrno]
      | some _acc1 =>
        match flowsOpt with
        | none => [AgentResponse.oidcErrno]
        | some _flows =>
          match env.dynamicRegistration1 with
          | none => [AgentResponse.oidcErrno]
          | some res =>
            if !(env.isJSONObject res) then
              [AgentResponse.errorInfo "Received no JSON formatted response."
                (env.escapeQuotes res)]
            else if env.jsonHasErrorKey res then
              match env.dynamicRegistration2 with
              | none => [AgentResponse.oidcErrno]
              | some res2 =>
                if env.jsonHasErrorKey res2 then
                  [AgentResponse.errorResp
                    ((env.jsonErrorDescription res).getD ((env.jsonErrorValue res).getD ""))]
                else [AgentResponse.successClient res2]
            else
              (if !(env.scopeContains (env.jsonScopeValue res) "openid")
                  || !(env.scopeContains (env.jsonScopeValue res) "offline_access") then
                [AgentResponse.errorClient eunscope_serror res]
              else [])
              ++ [AgentResponse.successClient res]

/-- Environment in which the first dynamic registration returns a JSON
object without an error key whose granted scope is only openid. -/
def envC1 : Env := { env0 with
  dynamicRegistration1 := some "scope openid only"
  isJSONObject := fun _ => true
  jsonScopeValue := fun _ => some "openid" }

/-- Membership in `addAccountToList`: a record of the updated registry is
either the freshly (re-)encrypted inserted record, or an untouched record
whose shortname differs from the inserted one. -/
theorem mem_addAccountToList {reg : Registry} {acc r : OidcAccount}
    (h : r ∈ addAccountToList reg acc) :
    r = { acc with reencrypted := true } ∨ (r ∈ reg ∧ r.shortname ≠ acc.shortname) := by
  unfold addAccountToList at h
  by_cases hany : reg.any (fun r => r.shortname == acc.shortname)
  · simp only [hany, if_true] at h
    rcases List.mem_map.mp h with ⟨s, hs, heq⟩
    by_cases hsn : (s.shortname == acc.shortname)
    · left
      simp only [hsn, if_true] at heq
      exact heq.symm
    · right
      simp only [hsn, if_false] at heq
      subst heq
      exact ⟨hs, by simpa using hsn⟩
  · simp only [hany, if_false] at h
    rcases List.mem_append.mp h with hl | hr
    · right
      refine ⟨hl, fun hcontra => ?_⟩
      apply hany
      rw [List.any_eq_true]
      exact ⟨r, hl, by simp [hcontra]⟩
    · left
      simpa using hr

/-- C4: for a loaded account, a delete request whose revocation call fails
replies the revocation-failure error and leaves the registry unchanged;
the record is removed exactly when revocation succeeds, and the registry
never changes unless revocation succeeded. -/
theorem delete_revocation_gates_eviction (env : Env) (reg : Registry)
    (acc found : OidcAccount) (hfind : findInList reg acc = some found) :
    (∀ acc1, env.issuerConfig acc = some acc1 → env.revokeToken acc1 = false →
       oidcd_handleDelete env reg (some acc) =
         (AgentResponse.errorResp ("Could not revoke token: " ++ env.serror), reg))
    ∧ (∀ acc1, env.issuerConfig acc = some acc1 → env.revokeToken acc1 = true →
       oidcd_handleDelete env reg (some acc) =
         (AgentResponse.statusSuccess, list_removeByName reg acc.shortname))
    ∧ ((oidcd_handleDelete env reg (some acc)).2 ≠ reg →
       ∃ acc1, env.issuerConfig acc = some acc1 ∧ env.revokeToken acc1 = true) := by
  refine ⟨?_, ?_, ?_⟩
  · intro acc1 hic hrv
    simp [oidcd_handleDelete, hfind, hic, hrv]
  · intro acc1 hic hrv
    simp [oidcd_handleDelete, hfind, hic, hrv]
  · intro hne
    cases hic : env.issuerConfig acc with
    | none =>
      exfalso
      apply hne
      simp [oidcd_handleDelete, hfind, hic]
    | some acc1 =>
      by_cases hrv : env.revokeToken acc1
      · exact ⟨acc1, rfl, hrv⟩
      · exfalso
        apply hne
        simp [oidcd_handleDelete, hfind, hic, hrv]

/-- C4 witness: concrete registry with the account loaded, revocation
failing; the error is reported and the registry is retained. -/
theorem delete_revocation_gates_eviction_witness :
    oidcd_handleDelete env0 [acct0] (some acct0) =
      (AgentResponse.errorResp ("Could not revoke token: " ++ env0.serror), [acct0]) :=
  (delete_revocation_gates_eviction env0 [acct0] acct0 acct0 (by decide)).1
    acct0 rfl rfl

/-- C7: a state_lookup request whose state matches no loaded record
replies not-found and leaves the registry unchanged. -/
theorem state_lookup_miss_not_found (reg : Registry) (state : String)
    (hmiss : ∀ r ∈ reg, r.usedState ≠ some state) :
    oidcd_handleStateLookUp reg state =
      (AgentResponse.statusNotFoundInfo ("No loaded account info found for state=" ++ state),
       reg) := by
  have hnone : reg.find? (account_matchByState state) = none := by
    rw [List.find?_eq_none]
    intro r hr
    simp [account_matchByState, hmiss r hr]
  simp [oidcd_handleStateLookUp, hnone]

/-- C7 witness: a registry holding one account with a different
outstanding state replies not-found for state T. -/
theorem state_lookup_miss_not_found_witness :
    oidcd_handleStateLookUp [acctStateA] "T" =
      (AgentResponse.statusNotFoundInfo "No loaded account info found for state=T",
       [acctStateA]) :=
  state_lookup_miss_not_found [acctStateA] "T" (by decide)

/-- C9 counterexample: two loaded records may carry the same outstanding
used-state (each installed by its own code exchange); the first lookup
consumes only the first record, and the second lookup for the same state
still replies success with the second record rather than not-found. -/
theorem state_lookup_duplicate_states_second_hit :
    (oidcd_handleStateLookUp [acctStateA, acctStateB] "S").1
      = AgentResponse.statusConfig { acctStateA with usedState := none }
    ∧ (oidcd_handleStateLookUp (oidcd_handleStateLookUp [acctStateA, acctStateB] "S").2 "S").1
      = AgentResponse.statusConfig { acctStateB with usedState := none } := by
  constructor
  · decide
  · decide

/-- C9 (amended): when the matched record is the only loaded record whose
used-state equals S, the first lookup replies success with that record
and clears its used-state, so a second lookup for S replies not-found:
the outstanding state is consumable at most once. -/
theorem state_lookup_consumes_state (reg : Registry) (st : String) (acc : OidcAccount)
    (hfind : reg.find? (account_matchByState st) = some acc)
    (huniq : ∀ r ∈ reg, r.usedState = some st → r.shortname = acc.shortname) :
    (oidcd_handleStateLookUp reg st).1
      = AgentResponse.statusConfig { acc with usedState := none }
    ∧ (oidcd_handleStateLookUp (oidcd_handleStateLookUp reg st).2 st).1
      = AgentResponse.statusNotFoundInfo ("No loaded account info found for state=" ++ st) := by
  have hfst : oidcd_handleStateLookUp reg st =
      (AgentResponse.statusConfig { acc with usedState := none },
       addAccountToList reg { acc with usedState := none }) := by
    simp [oidcd_handleStateLookUp, hfind]
  refine ⟨by rw [hfst], ?_⟩
  rw [hfst]
  have hnone : (addAccountToList reg { acc with usedState := none }).find?
      (account_matchByState st) = none := by
    rw [List.find?_eq_none]
    intro r hr hmatch
    have hused : r.usedState = some st := by
      simpa [account_matchByState] using hmatch
    rcases mem_addAccountToList hr with heq | ⟨hmem, hne⟩
    · rw [heq] at hused
      simp at hused
    · exact hne (huniq r hmem hused)
  simp [oidcd_handleStateLookUp, hnone]

/-- C9 (amended) witness: one record with outstanding state S; the first
lookup succeeds and the second replies not-found. -/
theorem state_lookup_consumes_state_witness :
    (oidcd_handleStateLookUp [acctStateA] "S").1
      = AgentResponse.statusConfig { acctStateA with usedState := none }
    ∧ (oidcd_handleStateLookUp (oidcd_handleStateLookUp [acctStateA] "S").2 "S").1
      = AgentResponse.statusNotFoundInfo "No loaded account info found for state=S" := by
  have h := state_lookup_consumes_state [acctStateA] "S" acctStateA (by decide)
    (by
      intro r hr _
      rcases List.mem_singleton.mp hr with rfl
      rfl)
  exact h

/-- The prompter-request log of `tokenProceed` is exactly the log passed in. -/
theorem tokenProceed_prompts (env : Env) (reg : Registry) (acctOpt : Option OidcAccount)
    (minValid : Nat) (scope : Option String) (prompts : List PrompterReq) :
    (tokenProceed env reg acctOpt minValid scope prompts).prompts = prompts := by
  cases acctOpt with
  | none => rfl
  | some acct =>
    rcases h : env.getAccessTokenUsingRefreshFlow acct (MinValid.period minValid) scope with ⟨t, a⟩
    rcases t with _ | tok <;> simp [tokenProceed, h]

/-- `tokenProceed` never writes a plain error-message response: it writes
either the errno response or the access-token response. -/
theorem tokenProceed_resp_not_error (env : Env) (reg : Registry)
    (acctOpt : Option OidcAccount) (minValid : Nat) (scope : Option String)
    (prompts : List PrompterReq) (m : String) :
    (tokenProceed env reg acctOpt minValid scope prompts).resp ≠ AgentResponse.errorResp m := by
  cases acctOpt with
  | none => simp [tokenProceed]
  | some acct =>
    rcases h : env.getAccessTokenUsingRefreshFlow acct (MinValid.period minValid) scope with ⟨t, a⟩
    rcases t with _ | tok <;> simp [tokenProceed, h]

/-- The only error-message response the core token handler ever writes is
ACCOUNT_NOT_LOADED. -/
theorem handleToken_core_error_msg (env : Env) (args : Arguments) (reg : Registry)
    (name : String) (mv : Nat) (scope hint : Option String) (m : String)
    (h : (oidcd_handleToken_core env args reg name mv scope hint).resp
          = AgentResponse.errorResp m) :
    m = ACCOUNT_NOT_LOADED := by
  unfold oidcd_handleToken_core at h
  split at h
  · split at h
    · simp at h
      exact h.symm
    · split at h
      · exact absurd h (tokenProceed_resp_not_error _ _ _ _ _ _ _)
      · simp at h
        exact h.symm
      · simp at h
  · split at h
    · split at h
      · exact absurd h (tokenProceed_resp_not_error _ _ _ _ _ _ _)
      · simp at h
      · simp at h
    · exact absurd h (tokenProceed_resp_not_error _ _ _ _ _ _ _)

/-- Confirmation behaviour of the core token handler for a record already
loaded at request time. -/
theorem handleToken_core_confirm (env : Env) (args : Arguments) (reg : Registry)
    (name : String) (mv : Nat) (scope hint : Option String) (acct : OidcAccount)
    (hfind : getAccountByName reg name = some acct)
    (hconf : (args.confirm || acct.confirmationRequired) = true) :
    (oidcd_handleToken_core env args reg name mv scope hint).prompts
        = [PrompterReq.confirmReq name (hint.getD "")]
    ∧ (env.confirmResult ≠ OidcErr.success →
       oidcd_handleToken_core env args reg name mv scope hint =
         { resp := AgentResponse.oidcErrno, reg := reg,
           prompts := [PrompterReq.confirmReq name (hint.getD "")] }) := by
  constructor
  · cases henv : env.confirmResult <;>
      simp [oidcd_handleToken_core, hfind, hconf, oidcd_getConfirmation, henv,
        tokenProceed_prompts]
  · intro hden
    cases henv : env.confirmResult with
    | success => exact absurd henv hden
    | usrPwCancel =>
      simp [oidcd_handleToken_core, hfind, hconf, oidcd_getConfirmation, henv]
    | other =>
      simp [oidcd_handleToken_core, hfind, hconf, oidcd_getConfirmation, henv]

/-- C2 counterexample: with the daemon-wide confirm flag set and autoload
enabled, a token request for an account that is not loaded is autoloaded
(the installed record even has its per-record confirmation flag set) and
the handler retrieves and returns a token without ever sending a confirm
request, although the environment would deny confirmation. -/
theorem token_autoload_skips_confirmation :
    (oidcd_handleToken envAutoload { confirm := true, no_autoload := false } []
        (some "acme") none none none).prompts = [PrompterReq.autoloadReq "acme" ""]
    ∧ (oidcd_handleToken envAutoload { confirm := true, no_autoload := false } []
        (some "acme") none none none).resp
      = AgentResponse.statusAccess "AT" "https://issuer.example" 0 := by
  constructor
  · decide
  · decide

/-- C2 (amended): for a record already loaded at request time that
requires confirmation (daemon-wide flag or per-record flag), the handler
sends exactly one confirm request to the prompter, and on denial replies
the errno error with the registry unchanged instead of returning a token;
a record installed via autoload in the same request is not subject to
this check. -/
theorem token_confirmation_for_loaded (env : Env) (args : Arguments) (reg : Registry)
    (name : String) (minStr scope hint : Option String) (acct : OidcAccount)
    (hfind : getAccountByName reg name = some acct)
    (hconf : (args.confirm || acct.confirmationRequired) = true) :
    (oidcd_handleToken env args reg (some name) minStr scope hint).prompts
        = [PrompterReq.confirmReq name (hint.getD "")]
    ∧ (env.confirmResult ≠ OidcErr.success →
       oidcd_handleToken env args reg (some name) minStr scope hint =
         { resp := AgentResponse.oidcErrno, reg := reg,
           prompts := [PrompterReq.confirmReq name (hint.getD "")] }) :=
  handleToken_core_confirm env args reg name
    (match minStr with
     | some s => env.strToInt (some s)
     | none => 0) scope hint acct hfind hconf

/-- C2 (amended) witness: a loaded record with the per-record flag set and
a denying prompter; the confirm request is sent and the denial propagates. -/
theorem token_confirmation_for_loaded_witness :
    (oidcd_handleToken { env0 with confirmResult := OidcErr.other }
        { confirm := false, no_autoload := false } [acctConfirm]
        (some "acme") none none none).prompts = [PrompterReq.confirmReq "acme" ""]
    ∧ oidcd_handleToken { env0 with confirmResult := OidcErr.other }
        { confirm := false, no_autoload := false } [acctConfirm]
        (some "acme") none none none =
        { resp := AgentResponse.oidcErrno, reg := [acctConfirm],
          prompts := [PrompterReq.confirmReq "acme" ""] } := by
  have h := token_confirmation_for_loaded { env0 with confirmResult := OidcErr.other }
    { confirm := false, no_autoload := false } [acctConfirm] "acme" none none none
    acctConfirm (by decide) (by decide)
  exact ⟨h.1, h.2 (by decide)⟩

/-- C10: a token request with a shortname but no min_valid_period field is
handled exactly as a min_valid_period of 0, and never replies the
bad-request error (which is reserved for a missing shortname). -/
theorem token_missing_min_valid_defaults_zero (env : Env) (args : Arguments)
    (reg : Registry) (name : String) (scope hint : Option String) :
    oidcd_handleToken env args reg (some name) none scope hint
      = oidcd_handleToken_core env args reg name 0 scope hint
    ∧ (oidcd_handleToken env args reg (some name) none scope hint).resp
      ≠ AgentResponse.errorResp "Bad request. Required field account_name not present." := by
  refine ⟨rfl, fun h => ?_⟩
  have hm := handleToken_core_error_msg env args reg name 0 scope hint _ h
  exact absurd hm (by decide)

/-- C10 witness at a concrete environment and registry. -/
theorem token_missing_min_valid_defaults_zero_witness :
    oidcd_handleToken env0 { confirm := false, no_autoload := true } []
        (some "acme") none none none
      = oidcd_handleToken_core env0 { confirm := false, no_autoload := true } [] "acme" 0 none none
    ∧ (oidcd_handleToken env0 { confirm := false, no_autoload := true } []
        (some "acme") none none none).resp
      ≠ AgentResponse.errorResp "Bad request. Required field account_name not present." :=
  token_missing_min_valid_defaults_zero env0 { confirm := false, no_autoload := true } []
    "acme" none none


/-- If every entry of the flow list is (case-insensitively) `refresh` or
`password` and both flows fail on every account, the loop with
`flows->len == 1` false runs off the end with the success flag unset. -/
theorem genFlowsLoop_allfail (env : Env)
    (hrf : ∀ a, (env.getAccessTokenUsingRefreshFlow a MinValid.forceNew none).1 = none)
    (hpw : ∀ a, (env.getAccessTokenUsingPasswordFlow a).1 = false) :
    ∀ (fl : List String) (acc : OidcAccount),
      (∀ f ∈ fl, strcaseequal f "refresh" = true ∨ strcaseequal f "password" = true) →
      ∃ accL, genFlowsLoop env false acc fl = Sum.inr (false, accL) := by
  intro fl
  induction fl with
  | nil => exact fun acc _ => ⟨acc, rfl⟩
  | cons f rest ih =>
    intro acc hkinds
    by_cases hfr : strcaseequal f "refresh" = true
    · rcases hflow : env.getAccessTokenUsingRefreshFlow acc MinValid.forceNew none with ⟨t, acc1⟩
      have ht : t = none := by
        have h2 := hrf acc
        rw [hflow] at h2
        exact h2
      subst ht
      rcases ih acc1 (fun g hg => hkinds g (List.mem_cons_of_mem _ hg)) with ⟨accL, hL⟩
      exact ⟨accL, by simp [genFlowsLoop, hfr, hflow, hL]⟩
    · have hfp : strcaseequal f "password" = true := by
        rcases hkinds f (List.mem_cons_self _ _) with hx | hx
        · exact absurd hx hfr
        · exact hx
      rcases hflow : env.getAccessTokenUsingPasswordFlow acc with ⟨b, acc1⟩
      have hb : b = false := by
        have h2 := hpw acc
        rw [hflow] at h2
        exact h2
      subst hb
      rcases ih acc1 (fun g hg => hkinds g (List.mem_cons_of_mem _ hg)) with ⟨accL, hL⟩
      exact ⟨accL, by simp [genFlowsLoop, hfr, hfp, hflow, hL]⟩

/-- If the account has no redirect URIs and neither the refresh nor the
password flow ever adds one, the loop never writes the accepted code-uri
response: the authorization-code flow is never initiated. -/
theorem genFlowsLoop_no_codeuri (env : Env) (len1 : Bool)
    (hpresR : ∀ a m s,
      ((env.getAccessTokenUsingRefreshFlow a m s).2).redirect_uris = a.redirect_uris)
    (hpresP : ∀ a,
      ((env.getAccessTokenUsingPasswordFlow a).2).redirect_uris = a.redirect_uris) :
    ∀ (fl : List String) (acc : OidcAccount), acc.redirect_uris = [] →
      ∀ uri st, genFlowsLoop env len1 acc fl ≠ Sum.inl (AgentResponse.acceptedCodeUri uri st) := by
  intro fl
  induction fl with
  | nil =>
    intro acc hacc uri st h
    simp [genFlowsLoop] at h
  | cons f rest ih =>
    intro acc hacc uri st h
    have hhas : hasRedirectUris acc = false := by simp [hasRedirectUris, hacc]
    by_cases hfr : strcaseequal f "refresh" = true
    · rcases hflow : env.getAccessTokenUsingRefreshFlow acc MinValid.forceNew none with ⟨t, acc1⟩
      have hacc1 : acc1.redirect_uris = [] := by
        have h2 := hpresR acc MinValid.forceNew none
        rw [hflow] at h2
        simpa [hacc] using h2
      rcases t with _ | tok
      · cases len1 with
        | false =>
          simp [genFlowsLoop, hfr, hflow] at h
          exact ih acc1 hacc1 uri st h
        | true => simp [genFlowsLoop, hfr, hflow] at h
      · simp [genFlowsLoop, hfr, hflow] at h
    · by_cases hfp : strcaseequal f "password" = true
      · rcases hflow : env.getAccessTokenUsingPasswordFlow acc with ⟨b, acc1⟩
        have hacc1 : acc1.redirect_uris = [] := by
          have h2 := hpresP acc
          rw [hflow] at h2
          simpa [hacc] using h2
        rcases b with _ | _
        · cases len1 with
          | false =>
            simp [genFlowsLoop, hfr, hfp, hflow] at h
            exact ih acc1 hacc1 uri st h
          | true => simp [genFlowsLoop, hfr, hfp, hflow] at h
        · simp [genFlowsLoop, hfr, hfp, hflow] at h
      · by_cases hfd : strcaseequal f "device" = true
        · rcases hdev : env.initDeviceFlow acc with _ | dj <;>
            simp [genFlowsLoop, hfr, hfp, hfd, hhas, hdev] at h
        · simp [genFlowsLoop, hfr, hfp, hfd, hhas] at h

/-- The gen handler never writes the accepted code-uri response for an
account without redirect URIs, provided the environment oracles preserve
the redirect-URI list. -/
theorem handleGen_no_codeuri (env : Env) (reg : Registry) (acc : OidcAccount)
    (flows : List String)
    (hpresR : ∀ a m s,
      ((env.getAccessTokenUsingRefreshFlow a m s).2).redirect_uris = a.redirect_uris)
    (hpresP : ∀ a,
      ((env.getAccessTokenUsingPasswordFlow a).2).redirect_uris = a.redirect_uris)
    (hpresI : ∀ a b, env.issuerConfig a = some b → b.redirect_uris = a.redirect_uris)
    (hno : acc.redirect_uris = []) :
    ∀ uri st, (oidcd_handleGen env reg (some acc) flows).1
      ≠ AgentResponse.acceptedCodeUri uri st := by
  intro uri st h
  cases hic : env.issuerConfig acc with
  | none => simp [oidcd_handleGen, hic] at h
  | some acc1 =>
    have hacc1 : acc1.redirect_uris = [] := by rw [hpresI acc acc1 hic, hno]
    have hred : (oidcd_handleGen env reg (some acc) flows).1
        = (oidcd_handleGen_flows env reg acc1 flows).1 := by
      simp [oidcd_handleGen, hic]
    rw [hred] at h
    by_cases hte : strValid acc1.tokenEndpoint = true
    · rcases hloop : genFlowsLoop env (flows.length == 1) acc1 flows with r | ⟨succ, acc2⟩
      · have hr : r = AgentResponse.acceptedCodeUri uri st := by
          simpa [oidcd_handleGen_flows, hte, hloop] using h
        exact genFlowsLoop_no_codeuri env (flows.length == 1) hpresR hpresP flows acc1 hacc1
          uri st (hr ▸ hloop)
      · rw [show (oidcd_handleGen_flows env reg acc1 flows)
            = genFinish reg succ { acc2 with username := none, password := none } by
          simp [oidcd_handleGen_flows, hte, hloop]] at h
        unfold genFinish at h
        split at h <;> simp at h
    · have hte2 : strValid acc1.tokenEndpoint = false := by
        cases hx : strValid acc1.tokenEndpoint
        · rfl
        · exact absurd hx hte
      simp [oidcd_handleGen_flows, hte2] at h

/-- C6: when the gen flow loop reaches a `code` entry while the account
has no redirect URIs, it replies the dedicated no-redirect-uris error;
and for such an account the gen handler never writes the accepted
code-uri response, so the authorization-code flow is never initiated. -/
theorem gen_code_flow_requires_redirect_uris (env : Env) (reg : Registry)
    (acc : OidcAccount) (flows rest : List String) (len1 : Bool) (f : String)
    (hpresR : ∀ a m s,
      ((env.getAccessTokenUsingRefreshFlow a m s).2).redirect_uris = a.redirect_uris)
    (hpresP : ∀ a,
      ((env.getAccessTokenUsingPasswordFlow a).2).redirect_uris = a.redirect_uris)
    (hpresI : ∀ a b, env.issuerConfig a = some b → b.redirect_uris = a.redirect_uris)
    (hno : acc.redirect_uris = []) (hf : strcaseequal f "code" = true) :
    genFlowsLoop env len1 acc (f :: rest)
      = Sum.inl (AgentResponse.errorResp "Only code flow specified, but no redirect uris")
    ∧ ∀ uri st, (oidcd_handleGen env reg (some acc) flows).1
        ≠ AgentResponse.acceptedCodeUri uri st := by
  have hhas : hasRedirectUris acc = false := by simp [hasRedirectUris, hno]
  have hlow : f.data.map Char.toLower = "code".data.map Char.toLower := by
    simpa [strcaseequal] using hf
  have hfr : strcaseequal f "refresh" = false := by
    unfold strcaseequal
    rw [hlow]
    decide
  have hfp : strcaseequal f "password" = false := by
    unfold strcaseequal
    rw [hlow]
    decide
  have hfd : strcaseequal f "device" = false := by
    unfold strcaseequal
    rw [hlow]
    decide
  constructor
  · simp [genFlowsLoop, hfr, hfp, hfd, hf, hhas]
  · exact handleGen_no_codeuri env reg acc flows hpresR hpresP hpresI hno

/-- C6 witness: a single-entry code flow list against an account with no
redirect URIs replies the dedicated error, and the handler result is not
a code-uri response. -/
theorem gen_code_flow_requires_redirect_uris_witness :
    genFlowsLoop env0 true acct0 ["code"]
      = Sum.inl (AgentResponse.errorResp "Only code flow specified, but no redirect uris")
    ∧ (oidcd_handleGen env0 [] (some acct0) ["code"]).1
      ≠ AgentResponse.acceptedCodeUri "uri" "state" := by
  have h := gen_code_flow_requires_redirect_uris env0 [] acct0 ["code"] [] true "code"
    (fun _ _ _ => rfl) (fun _ => rfl)
    (fun a b hb => by
      have h1 := Option.some.inj hb
      subst h1
      rfl)
    rfl (by decide)
  exact ⟨h.1, h.2 "uri" "state"⟩

/-- C3 counterexample: a gen request whose flow list is the single entry
refresh, with the refresh flow failing, replies the propagated errno
response rather than the no-flow-was-successful error. -/
theorem gen_single_refresh_failure_errno :
    oidcd_handleGen env0 [] (some acct0) ["refresh"] = (AgentResponse.oidcErrno, [])
    ∧ AgentResponse.oidcErrno ≠ AgentResponse.errorResp "No flow was successfull." := by
  constructor
  · decide
  · decide

/-- C3 (amended): (a) if the loop reports success but the resulting
refresh token is invalid, the handler replies the no-refresh-token error
and installs nothing; (b) if the flow list has more than one entry, all
entries are refresh or password flows and every attempt fails, the
handler replies the no-flow-was-successful error; (c) a single-entry
refresh list whose attempt fails propagates the errno response instead;
(d) likewise a single-entry password list whose attempt fails propagates
the errno response. -/
theorem gen_failure_responses (env : Env) (reg : Registry) (acc : OidcAccount)
    (flows : List String) (acc1 : OidcAccount)
    (hic : env.issuerConfig acc = some acc1)
    (hte : strValid acc1.tokenEndpoint = true) :
    (∀ accL, genFlowsLoop env (flows.length == 1) acc1 flows = Sum.inr (true, accL) →
       account_refreshTokenIsValid accL = false →
       oidcd_handleGen env reg (some acc) flows =
         (AgentResponse.errorResp "OIDP response does not contain a refresh token", reg))
    ∧ ((flows.length == 1) = false →
       (∀ f ∈ flows, strcaseequal f "refresh" = true ∨ strcaseequal f "password" = true) →
       (∀ a, (env.getAccessTokenUsingRefreshFlow a MinValid.forceNew none).1 = none) →
       (∀ a, (env.getAccessTokenUsingPasswordFlow a).1 = false) →
       oidcd_handleGen env reg (some acc) flows =
         (AgentResponse.errorResp "No flow was successfull.", reg))
    ∧ (∀ f, flows = [f] → strcaseequal f "refresh" = true →
       (env.getAccessTokenUsingRefreshFlow acc1 MinValid.forceNew none).1 = none →
       oidcd_handleGen env reg (some acc) flows = (AgentResponse.oidcErrno, reg))
    ∧ (∀ f, flows = [f] → strcaseequal f "refresh" = false →
       strcaseequal f "password" = true →
       (env.getAccessTokenUsingPasswordFlow acc1).1 = false →
       oidcd_handleGen env reg (some acc) flows = (AgentResponse.oidcErrno, reg)) := by
  refine ⟨?_, ?_, ?_, ?_⟩
  · intro accL hloop hrt
    simp only [account_refreshTokenIsValid] at hrt
    simp [oidcd_handleGen, hic, oidcd_handleGen_flows, hte, hloop, genFinish,
      account_refreshTokenIsValid, hrt]
  · intro hlen hkinds hrf hpw
    rcases genFlowsLoop_allfail env hrf hpw flows acc1 hkinds with ⟨accL, hloop⟩
    simp [oidcd_handleGen, hic, oidcd_handleGen_flows, hte, hlen, hloop, genFinish]
  · intro f hfl hfr hfail
    subst hfl
    rcases hflow : env.getAccessTokenUsingRefreshFlow acc1 MinValid.forceNew none with ⟨t, acc2⟩
    have ht : t = none := by
      rw [hflow] at hfail
      exact hfail
    subst ht
    simp [oidcd_handleGen, hic, oidcd_handleGen_flows, hte, genFlowsLoop, hfr, hflow]
  · intro f hfl hfr hfp hfail
    subst hfl
    rcases hflow : env.getAccessTokenUsingPasswordFlow acc1 with ⟨b, acc2⟩
    have hb : b = false := by
      rw [hflow] at hfail
      exact hfail
    subst hb
    simp [oidcd_handleGen, hic, oidcd_handleGen_flows, hte, genFlowsLoop, hfr, hfp, hflow]

/-- C3 (amended) witness: both flows of a two-entry refresh-password list
fail, and the handler replies the no-flow-was-successful error; a
single-entry password list whose flow fails propagates the errno
response. -/
theorem gen_failure_responses_witness :
    oidcd_handleGen env0 [] (some acct0) ["refresh", "password"]
      = (AgentResponse.errorResp "No flow was successfull.", [])
    ∧ oidcd_handleGen env0 [] (some acct0) ["password"]
      = (AgentResponse.oidcErrno, []) :=
  ⟨(gen_failure_responses env0 [] acct0 ["refresh", "password"] acct0 rfl (by decide)).2.1
     (by decide) (by decide) (fun _ => rfl) (fun _ => rfl),
   (gen_failure_responses env0 [] acct0 ["password"] acct0 rfl (by decide)).2.2.2
     "password" rfl (by decide) (by decide) rfl⟩

/-- C8: every record in the registry after a gen request was either
already loaded before the request, or has both username and password
cleared: a record installed by gen never retains credentials. -/
theorem gen_installed_accounts_have_no_credentials (env : Env) (reg : Registry)
    (accountOpt : Option OidcAccount) (flows : List String) (r : OidcAccount)
    (hmem : r ∈ (oidcd_handleGen env reg accountOpt flows).2) :
    r ∈ reg ∨ (r.username = none ∧ r.password = none) := by
  cases accountOpt with
  | none => exact Or.inl hmem
  | some acc0 =>
    cases hic : env.issuerConfig acc0 with
    | none =>
      have hmem2 : r ∈ reg := by
        have hres : oidcd_handleGen env reg (some acc0) flows = (AgentResponse.oidcErrno, reg) := by
          simp [oidcd_handleGen, hic]
        rw [hres] at hmem
        exact hmem
      exact Or.inl hmem2
    | some acc1 =>
      have hres : oidcd_handleGen env reg (some acc0) flows
          = oidcd_handleGen_flows env reg acc1 flows := by
        simp [oidcd_handleGen, hic]
      rw [hres] at hmem
      unfold oidcd_handleGen_flows at hmem
      split at hmem
      · exact Or.inl hmem
      · split at hmem
        · exact Or.inl hmem
        · unfold genFinish at hmem
          split at hmem
          · rcases mem_addAccountToList hmem with heq | ⟨hmem2, _⟩
            · right
              rw [heq]
              exact ⟨rfl, rfl⟩
            · exact Or.inl hmem2
          · exact Or.inl hmem

/-- C8 witness: a gen request whose parsed account still carries a
username and password installs the record with both cleared. -/
theorem gen_installed_accounts_have_no_credentials_witness :
    { acctCreds with username := none, password := none, reencrypted := true }
      ∈ (oidcd_handleGen envRefreshOk [] (some acctCreds) ["refresh"]).2
    ∧ ({ acctCreds with username := none, password := none, reencrypted := true }
        ∈ ([] : Registry)
      ∨ ({ acctCreds with username := none, password := none, reencrypted := true }.username = none
        ∧ { acctCreds with username := none, password := none, reencrypted := true }.password = none)) :=
  ⟨by decide,
   gen_installed_accounts_have_no_credentials envRefreshOk [] (some acctCreds) ["refresh"] _
     (by decide)⟩

/-- When a record with the inserted shortname is present,
`addAccountToList` replaces every record with that shortname by the
re-encrypted insert. -/
theorem addAccountToList_present (reg : Registry) (acc : OidcAccount)
    (hany : reg.any (fun r => r.shortname == acc.shortname) = true) :
    addAccountToList reg acc
      = reg.map (fun r =>
          if r.shortname == acc.shortname then { acc with reencrypted := true } else r) := by
  unfold addAccountToList
  simp [hany]

/-- C5: an add request whose shortname is already loaded replies an
idempotent success and leaves the registry contents unchanged except that
the existing record's death becomes now + timeout (0 meaning never) and
its sensitive buffers are re-encrypted. -/
theorem add_already_loaded_idempotent (env : Env) (reg : Registry)
    (acct0 found : OidcAccount) (timeout_str confirm_str : Option String)
    (hfind : getAccountByName reg acct0.shortname = some found) :
    oidcd_handleAdd env reg (some acct0) timeout_str confirm_str =
      ((if found.death ≠ add_death env (add_timeout env timeout_str) then
          AgentResponse.successInfo ("account already loaded. Lifetime set to "
            ++ toString (add_timeout env timeout_str) ++ " seconds.")
        else AgentResponse.successInfo "account already loaded."),
       reg.map (fun r => if r.shortname == acct0.shortname then
          { found with
            death := add_death env (add_timeout env timeout_str)
            reencrypted := true }
        else r)) := by
  have hsn2 : found.shortname = acct0.shortname := by
    have h1 := List.find?_some hfind
    simpa using h1
  have hmem : found ∈ reg := List.mem_of_find?_eq_some hfind
  have hany : reg.any (fun r => r.shortname == found.shortname) = true := by
    rw [List.any_eq_true]
    exact ⟨found, hmem, by simp⟩
  have hcore : ∀ (acct2 : OidcAccount), acct2.shortname = acct0.shortname →
      acct2.death = add_death env (add_timeout env timeout_str) →
      oidcd_handleAdd_core env reg acct2 (add_timeout env timeout_str) =
        ((if found.death ≠ add_death env (add_timeout env timeout_str) then
            AgentResponse.successInfo ("account already loaded. Lifetime set to "
              ++ toString (add_timeout env timeout_str) ++ " seconds.")
          else AgentResponse.successInfo "account already loaded."),
         reg.map (fun r => if r.shortname == acct0.shortname then
            { found with
              death := add_death env (add_timeout env timeout_str)
              reencrypted := true }
          else r)) := by
    intro acct2 hs hd
    unfold oidcd_handleAdd_core
    simp only [hs, hfind]
    rw [hd]
    by_cases hdeq : found.death = add_death env (add_timeout env timeout_str)
    · rw [if_neg (not_not_intro hdeq), if_neg (not_not_intro hdeq)]
      rw [addAccountToList_present reg found hany]
      rw [← hdeq]
      simp only [hsn2]
    · rw [if_pos hdeq, if_pos hdeq]
      rw [addAccountToList_present reg
        { found with death := add_death env (add_timeout env timeout_str) } hany]
      simp only [hsn2]
  by_cases hc : env.strToInt confirm_str ≠ 0
  · rw [show oidcd_handleAdd env reg (some acct0) timeout_str confirm_str
        = oidcd_handleAdd_core env reg
            { acct0 with
              death := add_death env (add_timeout env timeout_str)
              confirmationRequired := true }
            (add_timeout env timeout_str) by simp [oidcd_handleAdd, hc]]
    exact hcore _ rfl rfl
  · rw [show oidcd_handleAdd env reg (some acct0) timeout_str confirm_str
        = oidcd_handleAdd_core env reg
            { acct0 with death := add_death env (add_timeout env timeout_str) }
            (add_timeout env timeout_str) by simp [oidcd_handleAdd, hc]]
    exact hcore _ rfl rfl

/-- C5 witness: adding the already-loaded shortname with a 3600 second
timeout replies the idempotent success and only bumps the death stamp
(1000 + 3600) while re-encrypting the record. -/
theorem add_already_loaded_idempotent_witness :
    oidcd_handleAdd env0 [acct0] (some acct0) (some "3600") none =
      (AgentResponse.successInfo "account already loaded. Lifetime set to 3600 seconds.",
       [{ acct0 with death := 4600, reencrypted := true }]) := by
  have h := add_already_loaded_idempotent env0 [acct0] acct0 acct0 (some "3600") none
    (by decide)
  rw [h]
  decide

/-- C1: with the first dynamic-registration attempt returning a JSON
object without an error key whose granted scope lacks offline_access, the
handler writes the unscoped-grant error-client response and then also the
success-client response: two response objects for one request. -/
theorem register_unscoped_writes_two_responses :
    oidcd_handleRegister envC1 [] (some acct0) (some ["refresh"])
      = [AgentResponse.errorClient eunscope_serror "scope openid only",
         AgentResponse.successClient "scope openid only"]
    ∧ (oidcd_handleRegister envC1 [] (some acct0) (some ["refresh"])).length = 2 := by
  constructor
  · decide
  · decide
